import Mathlib

/-!
Verification of the red-dragon-inn client against its specification.

The TypeScript client is shallowly embedded in Lean:
- the view-model interfaces of the api module (GameViewPlayerCard,
  GameViewPlayerData, GameViewDrinkEvent, GameViewInterruptData,
  GameViewInterruptStack, GameViewInterruptStackRootItem, GameView) become
  structures with the same fields (optional TS fields become Option,
  numbers become Nat or Int, string index maps become association lists);
- each api helper that builds an HTTP request becomes a function to an
  ApiRequest value recording the url and the query parameters it would send;
- the pure rendering and state-update logic of the React components
  (GamePage, Hand, SubApp) becomes pure functions and a small event-step
  state machine.
-/

/-- Embeds the api module's GameViewPlayerCard interface: a card in the
requesting player's own hand, with full identity and a computed
isPlayable flag. -/
structure GameViewPlayerCard where
  cardName : String
  cardDescription : String
  isPlayable : Bool
  isDirected : Bool
  deriving DecidableEq, Repr

/-- Embeds the api module's GameViewPlayerData interface: the public,
per-player data of a game view.  Its only fields are the player's uuid,
three pile-size counts, and the public attributes alcoholContent,
fortitude, gold and isDead. -/
structure GameViewPlayerData where
  playerUuid : String
  drawPileSize : Nat
  discardPileSize : Nat
  drinkMePileSize : Nat
  alcoholContent : Nat
  fortitude : Int
  gold : Nat
  isDead : Bool
  deriving DecidableEq, Repr

/-- Embeds the api module's GameViewDrinkEvent interface: the event name
plus, optionally, the remaining contestants of a drinking contest. -/
structure GameViewDrinkEvent where
  eventName : String
  drinkingContestRemainingPlayerUuids : Option (List String)
  deriving DecidableEq, Repr

/-- Embeds the api module's GameViewInterruptStackRootItem interface. -/
structure GameViewInterruptStackRootItem where
  name : String
  itemType : String
  deriving DecidableEq, Repr

/-- Embeds the api module's GameViewInterruptStack interface: one projected
interrupt-stack entry. -/
structure GameViewInterruptStack where
  rootItem : GameViewInterruptStackRootItem
  interruptCardNames : List String
  deriving DecidableEq, Repr

/-- Embeds the api module's GameViewInterruptData interface. -/
structure GameViewInterruptData where
  interrupts : List GameViewInterruptStack
  currentInterruptTurn : String
  deriving DecidableEq, Repr

/-- Embeds the api module's GameView interface: the redacted per-player
snapshot returned by getGameView and by every mutating command. -/
structure GameView where
  gameName : String
  selfPlayerUuid : String
  currentTurnPlayerUuid : Option String
  currentTurnPhase : Option String
  canPass : Bool
  hand : List GameViewPlayerCard
  playerData : List GameViewPlayerData
  playerDisplayNames : List (String × String)
  interrupts : Option GameViewInterruptData
  drinkEvent : Option GameViewDrinkEvent
  isRunning : Bool
  winnerUuid : Option String
  deriving DecidableEq, Repr

/-- An HTTP GET request as assembled by the api helpers: the url and the
query parameters (a parameter whose value is none is omitted, matching an
undefined axios parameter). -/
structure ApiRequest where
  url : String
  params : List (String × Option String)
  deriving DecidableEq, Repr

/-- Embeds startGame of the current api module (src/unnamed/part_001):
it takes no arguments and always requests the fixed path. -/
def startGameRequest : ApiRequest :=
  { url := "/api/startGame/", params := [] }

/-- Embeds startGame of the older client api module (src/client/src/api.ts):
it takes a gameId argument and splices it into the request path. -/
def legacyStartGameRequest (gameId : String) : ApiRequest :=
  { url := "/api/startGame/" ++ gameId, params := [] }

/-- Embeds playCard of the current api module: card_index is always sent,
other_player_uuid only when a target is supplied. -/
def playCardRequest (cardIndex : Nat) (otherPlayerUuid : Option String) : ApiRequest :=
  { url := "/api/playCard"
    params := [("card_index", some (toString cardIndex)),
               ("other_player_uuid", otherPlayerUuid)] }

/-- Embeds the JavaScript expression cardIndices.join(",") on an array of
numbers: the decimal renderings of the elements joined by single commas. -/
def joinWithComma : List Nat → String
  | [] => ""
  | [i] => toString i
  | i :: j :: rest => toString i ++ "," ++ joinWithComma (j :: rest)

/-- Embeds the card_indices_string parameter computed by discardCards in the
current api module: undefined for an empty index list (the length is falsy),
otherwise the comma-joined indices. -/
def discardCardsParamValue (cardIndices : List Nat) : Option String :=
  if cardIndices.length ≠ 0 then some (joinWithComma cardIndices) else none

/-- Embeds discardCards of the current api module. -/
def discardCardsRequest (cardIndices : List Nat) : ApiRequest :=
  { url := "/api/discardCards"
    params := [("card_indices_string", discardCardsParamValue cardIndices)] }

/-- Embeds orderDrink of the current api module. -/
def orderDrinkRequest (otherPlayerUuid : String) : ApiRequest :=
  { url := "/api/orderDrink/" ++ otherPlayerUuid, params := [] }

/-- Embeds getCanDiscardCards of the GamePage component: true exactly when a
game view is present, the requester is the current turn player, and the
current phase is DiscardAndDraw. -/
def getCanDiscardCards : Option GameView → Bool
  | none => false
  | some gv =>
    (gv.currentTurnPlayerUuid == some gv.selfPlayerUuid)
      && (gv.currentTurnPhase == some "DiscardAndDraw")

/-- Embeds the canOrderDrinks constant of the GamePage component: true
exactly when a game view is present, the requester is the current turn
player, and the current phase is OrderDrinks. -/
def canOrderDrinks : Option GameView → Bool
  | none => false
  | some gv =>
    (gv.currentTurnPlayerUuid == some gv.selfPlayerUuid)
      && (gv.currentTurnPhase == some "OrderDrinks")

/-- Embeds the order-drink target list rendered by the GamePage component
when canOrderDrinks holds: the playerData entries whose uuid differs from
the requester's own uuid, one order-drink button each. -/
def orderDrinkTargets (gv : GameView) : List GameViewPlayerData :=
  gv.playerData.filter (fun player => player.playerUuid != gv.selfPlayerUuid)

/-- Embeds the play buttons the Hand component renders for one hand card at
a given index: none when the card is not playable; for a playable directed
card one button per playerData entry invoking playCard with that target
uuid; for a playable undirected card a single button invoking playCard with
no target.  Each invocation is recorded as the (cardIndex, otherPlayerUuid)
argument pair passed to the api playCard helper. -/
def playCardInvocations (gv : GameView) (index : Nat)
    (card : GameViewPlayerCard) : List (Nat × Option String) :=
  if card.isPlayable then
    if card.isDirected then
      gv.playerData.map (fun playerData => (index, some playerData.playerUuid))
    else
      [(index, none)]
  else
    []

/-- Embeds the state-update run by the SubApp component's initial
getGameView load: on success the view is stored, and the attached catch
handler stores undefined on failure, irrespective of any previous value. -/
def initialLoadResult (result : Except Unit GameView) : Option GameView :=
  match result with
  | Except.ok gv => some gv
  | Except.error _ => none

/-- Embeds the state-update run by one iteration of the SubApp component's
500 ms polling loop: the then handler stores the view on success, and with
no catch handler attached a failed poll leaves the stored state as it
was. -/
def pollStep (previous : Option GameView) (result : Except Unit GameView) :
    Option GameView :=
  match result with
  | Except.ok gv => some gv
  | Except.error _ => previous

/-- An event observed by the Hand component: a change of the
canDiscardCards prop (running its effect hook), a checkbox toggle on the
card at an index (rendered only while discarding is allowed), or the
then handler of a successful discardCards call (whose button is rendered
only while discarding is allowed). -/
inductive HandEvent where
  | propsUpdate (canDiscardCards : Bool)
  | toggleCheckbox (index : Nat) (checked : Bool)
  | discardSucceeded
  deriving DecidableEq, Repr

/-- The state of the Hand component: the current canDiscardCards prop and
the selectedCardIndices useState value. -/
structure HandState where
  canDiscardCards : Bool
  selectedCardIndices : List Nat
  deriving DecidableEq, Repr

/-- Embeds the Hand component's reaction to one event.  A props update
stores the new canDiscardCards and, per the effect hook, resets the
selection to the empty list when it is false.  A checkbox toggle appends
the index when checked and filters it out when unchecked; the checkbox only
exists while canDiscardCards holds, so the event is a no-op otherwise.  A
successful discard clears the selection; likewise its button only exists
while canDiscardCards holds. -/
def handStep (st : HandState) (e : HandEvent) : HandState :=
  match e with
  | HandEvent.propsUpdate b =>
    { canDiscardCards := b
      selectedCardIndices := if b then st.selectedCardIndices else [] }
  | HandEvent.toggleCheckbox index checked =>
    if st.canDiscardCards then
      { st with
        selectedCardIndices :=
          if checked then st.selectedCardIndices ++ [index]
          else st.selectedCardIndices.filter (fun item => item != index) }
    else st
  | HandEvent.discardSucceeded =>
    if st.canDiscardCards then { st with selectedCardIndices := [] } else st

/-- The Hand component mounted with an initial canDiscardCards prop (the
selection starts empty) and driven by a sequence of events. -/
def handRun (c : Bool) (events : List HandEvent) : HandState :=
  events.foldl handStep { canDiscardCards := c, selectedCardIndices := [] }

/-- Modelled from the spec: the server-side card definition (the game
session engine is not under src/).  Per the data model a card is an
immutable record with a name, a description and an isDirected flag (its
effect is card content, outside this development). -/
structure EngineCard where
  name : String
  cardDescription : String
  isDirected : Bool
  deriving DecidableEq, Repr

/-- Modelled from the spec: the server-side InterruptStackEntry (the game
session engine is not under src/): a root item, the ordered already-played
reaction cards, and the player whose interrupt turn it is. -/
structure InterruptStackEntry where
  rootItem : GameViewInterruptStackRootItem
  pendingReactions : List EngineCard
  turnOwner : String
  deriving DecidableEq, Repr

/-- Modelled from the spec: the View Projector's interrupt projection (the
game session engine is not under src/).  The stack is projected in order,
each entry to its root item together with the names of the reaction cards
already played onto it, plus the player whose interrupt turn it currently
is; hands are not an input of the projection. -/
def projectInterruptStack (stack : List InterruptStackEntry)
    (currentInterruptTurn : String) : GameViewInterruptData :=
  { interrupts := stack.map (fun entry =>
      { rootItem := entry.rootItem
        interruptCardNames := entry.pendingReactions.map EngineCard.name })
    currentInterruptTurn := currentInterruptTurn }

/-- Modelled from the spec: a drink event of the Drink Engine (the game
session engine is not under src/): either an ordinary drink event, or a
drinking contest tracking its live set of remaining participant uuids. -/
inductive DrinkEvent where
  | ordinary (eventName : String)
  | drinkingContest (eventName : String) (remainingPlayerUuids : List String)
  deriving DecidableEq, Repr

/-- The name of a drink event. -/
def DrinkEvent.eventName : DrinkEvent → String
  | DrinkEvent.ordinary n => n
  | DrinkEvent.drinkingContest n _ => n

/-- Whether a drink event is a drinking contest. -/
def DrinkEvent.isDrinkingContest : DrinkEvent → Bool
  | DrinkEvent.ordinary _ => false
  | DrinkEvent.drinkingContest _ _ => true

/-- Modelled from the spec: the View Projector's drink-event projection
(the game session engine is not under src/).  The event is exposed as its
name, and a drinking contest additionally carries the live remaining
participant uuids. -/
def projectDrinkEvent : DrinkEvent → GameViewDrinkEvent
  | DrinkEvent.ordinary n =>
    { eventName := n, drinkingContestRemainingPlayerUuids := none }
  | DrinkEvent.drinkingContest n remaining =>
    { eventName := n, drinkingContestRemainingPlayerUuids := some remaining }

/-- A concrete public-data record for a second player, used as a test
vector. -/
def samplePlayerData : GameViewPlayerData :=
  { playerUuid := "p2", drawPileSize := 3, discardPileSize := 1
    drinkMePileSize := 2, alcoholContent := 0, fortitude := 20
    gold := 10, isDead := false }

/-- A concrete public-data record for the requesting player, used as a test
vector. -/
def samplePlayerDataSelf : GameViewPlayerData :=
  { playerUuid := "p1", drawPileSize := 5, discardPileSize := 0
    drinkMePileSize := 3, alcoholContent := 1, fortitude := 18
    gold := 8, isDead := false }

/-- A concrete playable undirected hand card, used as a test vector. -/
def sampleCard : GameViewPlayerCard :=
  { cardName := "Gold Card", cardDescription := "Gain one gold."
    isPlayable := true, isDirected := false }

/-- A concrete playable directed hand card, used as a test vector. -/
def sampleDirectedCard : GameViewPlayerCard :=
  { cardName := "Direct Card", cardDescription := "Pick on someone."
    isPlayable := true, isDirected := true }

/-- A concrete game view for the requesting player p1 in the OrderDrinks
phase of their own turn, used as a test vector. -/
def sampleGameView : GameView :=
  { gameName := "Tavern"
    selfPlayerUuid := "p1"
    currentTurnPlayerUuid := some "p1"
    currentTurnPhase := some "OrderDrinks"
    canPass := true
    hand := [sampleCard, sampleDirectedCard]
    playerData := [samplePlayerDataSelf, samplePlayerData]
    playerDisplayNames := [("p1", "Alice"), ("p2", "Bob")]
    interrupts := none
    drinkEvent := none
    isRunning := true
    winnerUuid := none }

/-- A concrete already-played reaction card, used as a test vector. -/
def sampleReactionCard : EngineCard :=
  { name := "Negate", cardDescription := "Cancels the root item."
    isDirected := false }

/-- A concrete one-entry interrupt stack, used as a test vector. -/
def sampleInterruptStack : List InterruptStackEntry :=
  [{ rootItem := { name := "Wench Drinks", itemType := "DrinkEvent" }
     pendingReactions := [sampleReactionCard]
     turnOwner := "p2" }]

/-- Claim C1: in any game view, every per-player public-data entry consists
exactly of the eight public fields playerUuid, drawPileSize,
discardPileSize, drinkMePileSize, alcoholContent, fortitude, gold and
isDead (a uuid, numeric counts and public attributes), so it can carry no
card name or identity from another player's hand or piles. -/
theorem playerData_public_fields_only (gv : GameView)
    (d : GameViewPlayerData) (hd : d ∈ gv.playerData) :
    d = { playerUuid := d.playerUuid, drawPileSize := d.drawPileSize
          discardPileSize := d.discardPileSize
          drinkMePileSize := d.drinkMePileSize
          alcoholContent := d.alcoholContent, fortitude := d.fortitude
          gold := d.gold, isDead := d.isDead } := by
  cases d
  rfl

/-- Witness for claim C1 at a concrete game view and player-data entry. -/
theorem playerData_public_fields_only_witness :
    samplePlayerData ∈ sampleGameView.playerData ∧
      samplePlayerData =
        { playerUuid := "p2", drawPileSize := 3, discardPileSize := 1
          drinkMePileSize := 2, alcoholContent := 0, fortitude := 20
          gold := 10, isDead := false } :=
  ⟨by decide,
   playerData_public_fields_only sampleGameView samplePlayerData (by decide)⟩

/-- Claim C2: a game view consists exactly of the game name, the
requester's own uuid, the optional current turn player and phase, the
canPass flag, the requester's own hand, the per-player public data, the
display-name map, the optional interrupt and drink-event projections, the
running flag and the optional winner uuid; and every hand card carries
exactly its full identity (name and description) together with the
computed isPlayable flag and the isDirected flag. -/
theorem gameView_exact_shape (gv : GameView) :
    gv = { gameName := gv.gameName, selfPlayerUuid := gv.selfPlayerUuid
           currentTurnPlayerUuid := gv.currentTurnPlayerUuid
           currentTurnPhase := gv.currentTurnPhase, canPass := gv.canPass
           hand := gv.hand, playerData := gv.playerData
           playerDisplayNames := gv.playerDisplayNames
           interrupts := gv.interrupts, drinkEvent := gv.drinkEvent
           isRunning := gv.isRunning, winnerUuid := gv.winnerUuid } ∧
      ∀ c ∈ gv.hand,
        c = { cardName := c.cardName, cardDescription := c.cardDescription
              isPlayable := c.isPlayable, isDirected := c.isDirected } := by
  constructor
  · cases gv
    rfl
  · intro c _
    cases c
    rfl

/-- Witness for claim C2 at a concrete game view and hand card. -/
theorem gameView_exact_shape_witness :
    sampleCard ∈ sampleGameView.hand ∧
      sampleCard =
        { cardName := "Gold Card", cardDescription := "Gain one gold."
          isPlayable := true, isDirected := false } :=
  ⟨by decide, (gameView_exact_shape sampleGameView).2 sampleCard (by decide)⟩

/-- A concrete engine card standing for a card still held in a hand, used
as a test vector. -/
def sampleHandEngineCard : EngineCard :=
  { name := "Gold Card", cardDescription := "Gain one gold."
    isDirected := false }

/-- The projection of the sample interrupt stack's single entry, used as a
test vector. -/
def sampleProjectedInterrupt : GameViewInterruptStack :=
  { rootItem := { name := "Wench Drinks", itemType := "DrinkEvent" }
    interruptCardNames := ["Negate"] }

/-- Claim C3: the interrupt projection maps the stack, in order, to entries
of shape rootItem (name and item type) plus the names of the
already-played reaction cards, together with the player whose interrupt
turn it currently is; every projected card name is the name of a played
reaction of some stack entry, so a card whose name matches no played
reaction — in particular a card still held in a hand — never appears. -/
theorem interrupt_projection_shape (stack : List InterruptStackEntry)
    (turn : String) :
    (projectInterruptStack stack turn).currentInterruptTurn = turn ∧
    (projectInterruptStack stack turn).interrupts =
      stack.map (fun entry =>
        { rootItem := entry.rootItem
          interruptCardNames := entry.pendingReactions.map EngineCard.name }) ∧
    (∀ entry ∈ (projectInterruptStack stack turn).interrupts,
      ∀ n ∈ entry.interruptCardNames,
        ∃ e ∈ stack, ∃ c ∈ e.pendingReactions, c.name = n) ∧
    (∀ handCard : EngineCard,
      (∀ e ∈ stack, ∀ c ∈ e.pendingReactions, c.name ≠ handCard.name) →
      ∀ entry ∈ (projectInterruptStack stack turn).interrupts,
        handCard.name ∉ entry.interruptCardNames) := by
  refine ⟨rfl, rfl, ?_, ?_⟩
  · intro entry hentry n hn
    obtain ⟨e, he, rfl⟩ := List.mem_map.mp hentry
    obtain ⟨c, hc, hcn⟩ := List.mem_map.mp hn
    exact ⟨e, he, c, hc, hcn⟩
  · intro handCard hdisj entry hentry hmem
    obtain ⟨e, he, rfl⟩ := List.mem_map.mp hentry
    obtain ⟨c, hc, hcn⟩ := List.mem_map.mp hmem
    exact hdisj e he c hc hcn

/-- Witness for claim C3 at a concrete one-entry stack: the projection
carries the interrupt turn, and the name of a card still in a hand does
not appear among the projected interrupt card names. -/
theorem interrupt_projection_shape_witness :
    (projectInterruptStack sampleInterruptStack "p2").currentInterruptTurn
        = "p2" ∧
      sampleHandEngineCard.name ∉ sampleProjectedInterrupt.interruptCardNames :=
  ⟨(interrupt_projection_shape sampleInterruptStack "p2").1,
   (interrupt_projection_shape sampleInterruptStack "p2").2.2.2
     sampleHandEngineCard (by decide) sampleProjectedInterrupt (by decide)⟩

/-- Claim C4: a drinking contest in progress is projected to a drink event
carrying the live remaining participant uuids, an ordinary drink event is
projected to just its name with no contest field, and in general the
projection consists of the event's name plus a remaining-uuids field
present exactly for drinking contests. -/
theorem drinkEvent_projection (n : String) (remaining : List String)
    (ev : DrinkEvent) :
    projectDrinkEvent (DrinkEvent.drinkingContest n remaining) =
      { eventName := n
        drinkingContestRemainingPlayerUuids := some remaining } ∧
    projectDrinkEvent (DrinkEvent.ordinary n) =
      { eventName := n, drinkingContestRemainingPlayerUuids := none } ∧
    (projectDrinkEvent ev).eventName = ev.eventName ∧
    (projectDrinkEvent ev).drinkingContestRemainingPlayerUuids.isSome =
      ev.isDrinkingContest := by
  refine ⟨rfl, rfl, ?_, ?_⟩ <;> cases ev <;> rfl

/-- Claim C5: the GamePage offers the order-drink buttons exactly when the
requester is the current turn player and the phase is OrderDrinks (and
never without a view), and the offered targets never include the requester
themself. -/
theorem orderDrink_offered_iff (gv : GameView) :
    (canOrderDrinks (some gv) = true ↔
      gv.currentTurnPlayerUuid = some gv.selfPlayerUuid ∧
        gv.currentTurnPhase = some "OrderDrinks") ∧
    canOrderDrinks none = false ∧
    ∀ p ∈ orderDrinkTargets gv, p.playerUuid ≠ gv.selfPlayerUuid := by
  refine ⟨?_, rfl, ?_⟩
  · simp [canOrderDrinks]
  · intro p hp
    have h := (List.mem_filter.mp hp).2
    simpa using h

/-- Witness for claim C5 at a concrete game view in the OrderDrinks phase
of the requester's turn: the buttons are offered and the sample target is
not the requester. -/
theorem orderDrink_offered_iff_witness :
    canOrderDrinks (some sampleGameView) = true ∧
      samplePlayerData.playerUuid ≠ sampleGameView.selfPlayerUuid :=
  ⟨(orderDrink_offered_iff sampleGameView).1.mpr ⟨rfl, rfl⟩,
   (orderDrink_offered_iff sampleGameView).2.2 samplePlayerData (by decide)⟩

/-- Claim C6: every play invocation the Hand component issues for a hand
card keeps that card's index and supplies an other_player_uuid target
exactly when the card's isDirected flag is true. -/
theorem playCard_target_iff_directed (gv : GameView) (index : Nat)
    (card : GameViewPlayerCard) (_hc : card ∈ gv.hand) :
    ∀ inv ∈ playCardInvocations gv index card,
      inv.1 = index ∧ (inv.2.isSome = true ↔ card.isDirected = true) := by
  intro inv hinv
  unfold playCardInvocations at hinv
  split at hinv
  · split at hinv
    · obtain ⟨p, hp, rfl⟩ := List.mem_map.mp hinv
      refine ⟨rfl, ?_⟩
      simp [*]
    · rcases List.mem_singleton.mp hinv with rfl
      refine ⟨rfl, ?_⟩
      simp [*]
  · cases hinv

/-- Witness for claim C6 at a concrete directed hand card: its invocation
at index 1 targeting p2 keeps the index and carries a target. -/
theorem playCard_target_iff_directed_witness :
    ((1, some "p2") : Nat × Option String).1 = 1 ∧
      (((1, some "p2") : Nat × Option String).2.isSome = true ↔
        sampleDirectedCard.isDirected = true) :=
  playCard_target_iff_directed sampleGameView 1 sampleDirectedCard (by decide)
    (1, some "p2") (by decide)

/-- Claim C7 counterexample: the older client api module's startGame does
take a game identifier — its request url varies with the gameId argument
the client passes, so the repository also contains a startGame whose game
session is selected by a client-supplied argument. -/
theorem startGame_legacy_takes_gameId :
    (legacyStartGameRequest "g1").url = "/api/startGame/g1" ∧
      legacyStartGameRequest "g1" ≠ legacyStartGameRequest "g2" := by
  exact ⟨rfl, by decide⟩

/-- Claim C7 amended: in the current api module startGame takes no
parameters and always requests the fixed path /api/startGame/ with no
query parameters, so the session it starts is resolved from the caller's
identity; the older api module's startGame instead spliced a
client-supplied gameId into the path. -/
theorem startGame_no_parameters_current_api :
    startGameRequest.url = "/api/startGame/" ∧
      startGameRequest.params = [] ∧
      ∀ gameId : String,
        (legacyStartGameRequest gameId).url = "/api/startGame/" ++ gameId :=
  ⟨rfl, rfl, fun _ => rfl⟩

/-- Folding the comma-join step over a list distributes over a prefix of
the accumulator. -/
theorem foldl_comma_prepend (t : List Nat) (s₁ s₂ : String) :
    t.foldl (fun s j => s ++ "," ++ toString j) (s₁ ++ s₂) =
      s₁ ++ t.foldl (fun s j => s ++ "," ++ toString j) s₂ := by
  induction t generalizing s₂ with
  | nil => rfl
  | cons j t ih =>
    simp only [List.foldl_cons]
    have h1 : (s₁ ++ s₂) ++ "," ++ toString j =
        s₁ ++ (s₂ ++ "," ++ toString j) := by
      simp [String.append_assoc]
    rw [h1]
    exact ih (s₂ ++ "," ++ toString j)

/-- The comma join of a nonempty list is its head's rendering with one
comma and one element rendering appended per further element, in order. -/
theorem joinWithComma_cons (i : Nat) (l : List Nat) :
    joinWithComma (i :: l) =
      l.foldl (fun s j => s ++ "," ++ toString j) (toString i) := by
  induction l generalizing i with
  | nil => rfl
  | cons j t ih =>
    have hstep : joinWithComma (i :: j :: t) =
        toString i ++ "," ++ joinWithComma (j :: t) := rfl
    rw [hstep, ih j, List.foldl_cons]
    rw [← foldl_comma_prepend t (toString i ++ ",") (toString j)]

/-- Claim C8: the discardCards api helper omits the card_indices_string
parameter (it is undefined) for an empty index list, and for a nonempty
list sends exactly the comma-joined renderings of the given indices in
order. -/
theorem discardCards_indices_param (i : Nat) (l : List Nat) :
    (discardCardsRequest []).params = [("card_indices_string", none)] ∧
      (discardCardsRequest (i :: l)).params =
        [("card_indices_string",
          some (l.foldl (fun s j => s ++ "," ++ toString j) (toString i)))] := by
  constructor
  · rfl
  · have hv : discardCardsParamValue (i :: l) = some (joinWithComma (i :: l)) := by
      simp [discardCardsParamValue]
    simp only [discardCardsRequest, hv, joinWithComma_cons]

/-- Any run of failing polls returns the stored state it started from. -/
theorem foldl_pollStep_errors :
    ∀ (rs : List (Except Unit GameView)) (s : Option GameView),
      (∀ r ∈ rs, r = Except.error ()) → rs.foldl pollStep s = s := by
  intro rs
  induction rs with
  | nil => intro s _; rfl
  | cons r t ih =>
    intro s h
    have hr := h r (List.mem_cons_self r t)
    subst hr
    simp only [List.foldl_cons]
    exact ih (pollStep s (Except.error ()))
      (fun x hx => h x (List.mem_cons_of_mem _ hx))

/-- Claim C9: a failed poll of getGameView leaves the previously stored
game view unchanged — any run of failing polls returns the state it
started from, while a successful poll stores the new view — whereas a
failure of the initial load stores undefined. -/
theorem poll_failure_preserves_view (s : Option GameView) (gv : GameView)
    (rs : List (Except Unit GameView))
    (h : ∀ r ∈ rs, r = Except.error ()) :
    pollStep s (Except.error ()) = s ∧
      pollStep s (Except.ok gv) = some gv ∧
      initialLoadResult (Except.error ()) = none ∧
      rs.foldl pollStep s = s :=
  ⟨rfl, rfl, rfl, foldl_pollStep_errors rs s h⟩

/-- Witness for claim C9 at a concrete stored view and a one-failure poll
run. -/
theorem poll_failure_preserves_view_witness :
    [Except.error ()].foldl pollStep (some sampleGameView) =
        some sampleGameView ∧
      initialLoadResult (Except.error ()) = none := by
  have h := poll_failure_preserves_view (some sampleGameView) sampleGameView
    [Except.error ()] (fun r hr => List.mem_singleton.mp hr)
  exact ⟨h.2.2.2, h.2.2.1⟩

/-- One Hand-component step preserves the emptiness of the selection
whenever discarding is disallowed. -/
theorem handStep_preserves_empty (st : HandState)
    (h : st.canDiscardCards = false → st.selectedCardIndices = [])
    (e : HandEvent) :
    (handStep st e).canDiscardCards = false →
      (handStep st e).selectedCardIndices = [] := by
  cases e with
  | propsUpdate b =>
    intro hb
    cases b with
    | false => simp [handStep]
    | true => simp [handStep] at hb
  | toggleCheckbox index checked =>
    intro hb
    cases hcd : st.canDiscardCards with
    | false =>
      simp only [handStep, hcd] at hb ⊢
      simp only [Bool.false_eq_true, if_false]
      exact h hcd
    | true => simp [handStep, hcd] at hb
  | discardSucceeded =>
    intro hb
    cases hcd : st.canDiscardCards with
    | false =>
      simp only [handStep, hcd] at hb ⊢
      simp only [Bool.false_eq_true, if_false]
      exact h hcd
    | true => simp [handStep, hcd]

/-- Any run of Hand-component events preserves the emptiness of the
selection whenever discarding is disallowed. -/
theorem foldl_handStep_preserves_empty :
    ∀ (events : List HandEvent) (st : HandState),
      (st.canDiscardCards = false → st.selectedCardIndices = []) →
      (events.foldl handStep st).canDiscardCards = false →
      (events.foldl handStep st).selectedCardIndices = [] := by
  intro events
  induction events with
  | nil => intro st h; exact h
  | cons e t ih =>
    intro st h
    simp only [List.foldl_cons]
    exact ih (handStep st e) (handStep_preserves_empty st h e)

/-- Claim C10: in any reachable state of the Hand component in which
discarding is not allowed, the set of selected card indices is empty — the
selection is reset when the canDiscardCards prop turns false and cleared
after a successful discard, so no selection carries over outside the
requester's DiscardAndDraw phase. -/
theorem hand_selection_empty_when_discard_disallowed (c : Bool)
    (events : List HandEvent)
    (h : (handRun c events).canDiscardCards = false) :
    (handRun c events).selectedCardIndices = [] :=
  foldl_handStep_preserves_empty events
    { canDiscardCards := c, selectedCardIndices := [] } (fun _ => rfl) h

/-- Witness for claim C10 at a concrete run: a card is selected while
discarding is allowed, then the prop turns false and the selection is
empty. -/
theorem hand_selection_empty_witness :
    (handRun true
      [HandEvent.toggleCheckbox 0 true,
       HandEvent.propsUpdate false]).selectedCardIndices = [] :=
  hand_selection_empty_when_discard_disallowed true
    [HandEvent.toggleCheckbox 0 true, HandEvent.propsUpdate false] (by decide)
